import Mathlib

set_option linter.unusedVariables false

/-! Shallow embedding of ltrace's tracing core: the PPC PLT-resolution machinery
from sysdeps/linux-gnu/ppc/plt.c and the FreeBSD stopping coordinator from
sysdeps/freebsd/trace.c.  Machine addresses and word values are modelled as Nat
(GElf_Addr is 64-bit unsigned; wraparound is made explicit with % 2 ^ 64 at the
one place where it matters).  Fallible ptrace peeks/pokes return Option. -/

namespace Ltrace

/-- Callback status, mirroring enum callback_status (CBS_STOP / CBS_CONT / CBS_FAIL). -/
inductive CBStatus
  | cbs_stop
  | cbs_cont
  | cbs_fail
  deriving DecidableEq

/-- Tracee memory for the PLT machinery: a word-addressed store paired with a
readability predicate that models whether a ptrace PEEKTEXT/POKETEXT at the
address succeeds. -/
structure Mem where
  readable : Nat → Bool
  val : Nat → Nat

/-- Embeds read_plt_slot_value (plt.c:340-355): PTRACE_PEEKTEXT of a .plt slot;
none models the ptrace error path. -/
def read_plt_slot_value (m : Mem) (addr : Nat) : Option Nat :=
  if m.readable addr then some (m.val addr) else none

/-- Store VALUE at ADDR in the tracee's memory. -/
def mem_write (m : Mem) (addr value : Nat) : Mem :=
  { m with val := fun x => if x = addr then value else m.val x }

/-- Embeds unresolve_plt_slot (plt.c:357-369): PTRACE_POKETEXT of VALUE into the
.plt slot at ADDR; none models the ptrace error path. -/
def unresolve_plt_slot (m : Mem) (addr value : Nat) : Option Mem :=
  if m.readable addr then some (mem_write m addr value) else none

/-- PLT symbol kind on PPC64, mirroring enum ppc64_plt_type
(PPC64PLT_STUB / PPC64PLT_UNRESOLVED / PPC64PLT_RESOLVED). -/
inductive PltType
  | stub
  | unresolved
  | resolved
  deriving DecidableEq

/-- Library symbol as used by the PPC64 PLT machinery: name, breakpoint (enter)
address, and the arch-specific fields arch.type, arch.plt_slot_addr and
arch.resolved_value used by plt.c. -/
structure LibSym where
  name : String
  enter_addr : Nat
  pltType : PltType
  plt_slot_addr : Nat
  resolved_value : Nat
  deriving DecidableEq

/-- Machine tag of the traced binary (lte->ehdr.e_machine). -/
inductive Machine
  | em_ppc
  | em_ppc64
  deriving DecidableEq

/-- Embeds keep_stepping_p (plt.c:469-492).  Reads the .plt slot; while the slot
still holds resolved_value returns CBS_CONT; once it differs, rewrites the slot
back to resolved_value, migrates the symbol to RESOLVED recording the newly
observed value, and returns CBS_STOP.  Ptrace failures yield CBS_FAIL. -/
def keep_stepping_p (m : Mem) (sym : LibSym) : CBStatus × LibSym × Mem :=
  match read_plt_slot_value m sym.plt_slot_addr with
  | none => (.cbs_fail, sym, m)
  | some value =>
    if value = sym.resolved_value then (.cbs_cont, sym, m)
    else
      match unresolve_plt_slot m sym.plt_slot_addr sym.resolved_value with
      | none => (.cbs_fail, sym, m)
      | some m2 => (.cbs_stop, { sym with pltType := .resolved, resolved_value := value }, m2)

/-- One resolution episode: the list WS holds the value found in the .plt slot at
each successive invocation of keep_stepping_p during the single-step loop (the
dynamic linker may overwrite the slot between steps).  Returns the final symbol
and memory when the predicate stops, none if it never stops (or fails). -/
def resolve_episode (m : Mem) (sym : LibSym) : List Nat → Option (LibSym × Mem)
  | [] => none
  | w :: ws =>
    let m1 : Mem := mem_write m sym.plt_slot_addr w
    match keep_stepping_p m1 sym with
    | (.cbs_cont, s, m2) => resolve_episode m2 s ws
    | (.cbs_stop, s, m2) => some (s, m2)
    | (.cbs_fail, _, _) => none

/-- ELF-side inputs used by arch_elf_add_plt_entry: machine tag, the PPC32
secure-plt flag, the glink stub base, the .plt section bounds and the remaining
list of stub symbols (lte->arch.stubs). -/
structure Ltelf where
  machine : Machine
  secure_plt : Bool
  plt_stub_vma : Nat
  plt_addr : Nat
  plt_size : Nat
  stubs : List LibSym

/-- Embeds arch_plt_sym_val (plt.c:100-117): the PLT entry address for
relocation NDX (PPC_PLT_STUB_SIZE = 16, PPC64_PLT_STUB_SIZE = 8). -/
def arch_plt_sym_val (lte : Ltelf) (ndx : Nat) (r_offset : Nat) : Nat :=
  if lte.machine = .em_ppc ∧ lte.secure_plt then lte.plt_stub_vma + 16 * ndx
  else if lte.machine = .em_ppc then r_offset
  else lte.plt_stub_vma + 8 * ndx

/-- Embeds the asserted range condition of arch_elf_add_plt_entry (plt.c:411-412):
plt_slot_addr >= lte->plt_addr || plt_slot_addr < lte->plt_addr + lte->plt_size,
with the 64-bit unsigned addition made explicit. -/
def plt_slot_range_check (plt_addr plt_size plt_slot_addr : Nat) : Bool :=
  decide (plt_slot_addr ≥ plt_addr) || decide (plt_slot_addr < (plt_addr + plt_size) % 2 ^ 64)

/-- Result of arch_elf_add_plt_entry, mirroring enum plt_status. -/
inductive PltStatus
  | plt_default
  | plt_ok
  | plt_fail
  deriving DecidableEq

/-- Return package of arch_elf_add_plt_entry: the status, the symbol chain
written to *ret, the (possibly updated) tracee memory and the remaining
lte->arch.stubs list. -/
structure AddPltResult where
  status : PltStatus
  syms : List LibSym
  mem : Mem
  stubs : List LibSym

/-- Embeds the stub re-chaining loop of arch_elf_add_plt_entry (plt.c:382-395):
stubs whose name matches A_NAME are unhooked from the stub list and pushed onto
CHAIN (so CHAIN ends up in reverse traversal order). -/
def rechain_stubs (a_name : String) : List LibSym → List LibSym → List LibSym × List LibSym
  | [], chain => (chain, [])
  | s :: ss, chain =>
    if s.name = a_name then rechain_stubs a_name ss (s :: chain)
    else
      let (c, r) := rechain_stubs a_name ss chain
      (c, s :: r)

/-- Embeds arch_elf_add_plt_entry (plt.c:371-455).  EM_PPC defers to the default
machinery.  On PPC64, matching stub symbols are returned as a chain; otherwise
the live .plt slot is read from the process image: a slot equal to the PLT entry
address or zero yields an UNRESOLVED symbol with resolved_value = the PLT entry
address; any other value is written back to the PLT entry address in the tracee
and yields a RESOLVED symbol with resolved_value = the previously read slot
value.  ALLOC_OK models the strdup/malloc pair succeeding. -/
def arch_elf_add_plt_entry (m : Mem) (lte : Ltelf) (a_name : String)
    (r_offset ndx : Nat) (allocOk : Bool) : AddPltResult :=
  if lte.machine = .em_ppc then
    { status := .plt_default, syms := [], mem := m, stubs := lte.stubs }
  else
    let (chain, rest) := rechain_stubs a_name lte.stubs []
    if chain ≠ [] then { status := .plt_ok, syms := chain, mem := m, stubs := rest }
    else
      let plt_entry_addr := arch_plt_sym_val lte ndx r_offset
      let plt_slot_addr := r_offset
      match read_plt_slot_value m plt_slot_addr with
      | none => { status := .plt_fail, syms := [], mem := m, stubs := rest }
      | some plt_slot_value =>
        if ¬allocOk then { status := .plt_fail, syms := [], mem := m, stubs := rest }
        else if plt_slot_value = plt_entry_addr ∨ plt_slot_value = 0 then
          { status := .plt_ok,
            syms := [⟨a_name, plt_entry_addr, .unresolved, plt_slot_addr, plt_entry_addr⟩],
            mem := m, stubs := rest }
        else
          match unresolve_plt_slot m plt_slot_addr plt_entry_addr with
          | none => { status := .plt_fail, syms := [], mem := m, stubs := rest }
          | some m2 =>
            { status := .plt_ok,
              syms := [⟨a_name, plt_entry_addr, .resolved, plt_slot_addr, plt_slot_value⟩],
              mem := m2, stubs := rest }

/-- Breakpoint record as seen by ppc64_plt_bp_continue: its address, its library
symbol and the enabled flag. -/
structure Breakpoint where
  addr : Nat
  libsym : LibSym
  enabled : Bool
  deriving DecidableEq

/-- Observable outcome of ppc64_plt_bp_continue: the IP write issued (if any),
whether continue_process was called, whether a stopping handler was installed,
the breakpoint as left behind, whether the handler-install failure fallback
(continue_after_breakpoint) ran, and whether the stub case aborted. -/
structure BpContinueResult where
  setIP : Option Nat
  continuedProcess : Bool
  installedHandler : Bool
  bp : Breakpoint
  fellBack : Bool
  aborted : Bool
  deriving DecidableEq

/-- Embeds ppc64_plt_bp_continue (plt.c:494-521).  UNRESOLVED installs the
stopping handler with keep_stepping_p (INSTALL_OK models the install
succeeding; on failure it falls back to continue_after_breakpoint).  RESOLVED
sets the IP to resolved_value and continues the process.  STUB falls out of the
switch into an assert/abort. -/
def ppc64_plt_bp_continue (installOk : Bool) (bp : Breakpoint) : BpContinueResult :=
  match bp.libsym.pltType with
  | .unresolved =>
    if installOk then
      { setIP := none, continuedProcess := false, installedHandler := true,
        bp := bp, fellBack := false, aborted := false }
    else
      { setIP := some bp.addr, continuedProcess := true, installedHandler := false,
        bp := bp, fellBack := true, aborted := false }
  | .resolved =>
    { setIP := some bp.libsym.resolved_value, continuedProcess := true,
      installedHandler := false, bp := bp, fellBack := false, aborted := false }
  | .stub =>
    { setIP := none, continuedProcess := false, installedHandler := false,
      bp := bp, fellBack := false, aborted := true }

/-! The FreeBSD stopping coordinator (sysdeps/freebsd/trace.c).  Tracee tasks
are identified by pid.  Calls into the live OS (process_status, each_task over
the leader's thread group, PT_STEP success, the keep_stepping_p and
ugly_workaround_p callbacks) are threaded in as explicit environment inputs. -/

/-- Event kinds routed through the handler, mirroring the spec's event taxonomy
(enum Event_type). -/
inductive EventType
  | ev_none
  | ev_signal
  | ev_breakpoint
  | ev_syscall
  | ev_sysret
  | ev_exec
  | ev_fork
  | ev_vfork
  | ev_exit
  | ev_exit_signal
  | ev_new
  deriving DecidableEq

/-- Event payload (type plus the e_un member the handler inspects). -/
structure Event0 where
  type : EventType
  signum : Nat := 0
  brk_addr : Nat := 0
  deriving DecidableEq

/-- An entry of the event queue: the owning process (event->proc, possibly NULL)
and the payload. -/
structure QEvent where
  proc : Option Nat
  ev : Event0
  deriving DecidableEq

/-- FreeBSD SIGSTOP signal number. -/
def SIGSTOP : Nat := 17

/-- Embeds event_for_pid (trace.c:119-125): the queued event matches when its
process is non-NULL and has the given pid. -/
def event_for_pid (pid : Nat) (e : QEvent) : Bool :=
  match e.proc with
  | some p => p == pid
  | none => false

/-- Embeds have_events_for (trace.c:127-131): some queued event matches PID. -/
def have_events_for (q : List QEvent) (pid : Nat) : Bool :=
  q.any (event_for_pid pid)

/-- Observable primitive actions issued by the coordinator (ptrace calls,
breakpoint byte flips, handler lifecycle operations). -/
inductive Action
  | pt_syscall (pid : Nat)
  | pt_step (pid : Nat)
  | pt_continue (pid : Nat)
  | resume_threads (pid : Nat)
  | suspend_threads (pid : Nat)
  | disable_bp
  | enable_bp
  | delete_bp (addr : Nat)
  | insert_bp (addr : Nat)
  | bp_on_hit
  | undo_bp (addr : Nat)
  | continue_proc (pid : Nat)
  | destroy_handler
  | detach_leader
  deriving DecidableEq

/-- Embeds continue_process (trace.c:181-198): resume suspended sibling LWPs if
we are mid-singlestep, then issue PT_SYSCALL only when the event queue holds no
event for PID. -/
def continue_process (q : List QEvent) (onstep : Bool) (pid : Nat) : List Action :=
  (if onstep then [Action.resume_threads pid] else []) ++
  (if have_events_for q pid then [] else [Action.pt_syscall pid])

/-- Per-task stopping record, mirroring struct pid_task as used by trace.c (the
struct itself is declared in ltrace's trace.h, outside src/; its fields are
exactly those trace.c reads and writes). -/
structure PidTask where
  pid : Nat
  sigstopped : Bool := false
  delivered : Bool := false
  vforked : Bool := false
  sysret : Bool := false
  got_event : Bool := false
  deriving DecidableEq

/-- Embeds get_task_info (trace.c:200-210): first row with the given pid. -/
def get_task_info : List PidTask → Nat → Option PidTask
  | [], _ => none
  | t :: ts, p => if t.pid = p then some t else get_task_info ts p

/-- In-place mutation of the row found by get_task_info, expressed functionally:
apply F to the first row whose pid is P. -/
def update_task : List PidTask → Nat → (PidTask → PidTask) → List PidTask
  | [], _, _ => []
  | t :: ts, p, f => if t.pid = p then f t :: ts else t :: update_task ts p f

/-- Process status as reported by the OS, mirroring enum process_status. -/
inductive ProcStatus
  | ps_invalid
  | ps_tracing_stop
  | ps_sleeping
  | ps_stop
  | ps_zombie
  | ps_other
  deriving DecidableEq

/-- Embeds task_stopped (trace.c:230-253): already stopped, zombie or vanishing
tasks yield CBS_CONT (skip); sleeping, job-stopped or running tasks yield
CBS_STOP (they still need attention). -/
def task_stopped (st : ProcStatus) : CBStatus :=
  match st with
  | .ps_invalid | .ps_tracing_stop | .ps_zombie => .cbs_cont
  | .ps_sleeping | .ps_stop | .ps_other => .cbs_stop

/-- Attributes of a live task consulted by send_sigstop and task_blocked: its
pid, whether it is still being created, its OS process status, and whether a
process_vfork handler hangs somewhere in its thread group (is_vfork_parent,
trace.c:270-283). -/
structure Task0 where
  pid : Nat
  beingCreated : Bool := false
  status : ProcStatus
  isVforkParent : Bool := false
  deriving DecidableEq

/-- Embeds task_blocked (trace.c:255-266): a task is blocked if its pid-set row
is flagged vforked, or else if task_stopped says it needs no attention. -/
def task_blocked (pids : List PidTask) (task : Task0) : CBStatus :=
  match get_task_info pids task.pid with
  | some ti => if ti.vforked then .cbs_cont else task_stopped task.status
  | none => task_stopped task.status

/-- The predicate "every task in the leader's group is blocked or a vfork
parent", i.e. each_task(leader, task_blocked, pids) == NULL. -/
def all_tasks_blocked (pids : List PidTask) (tasks : List Task0) : Bool :=
  tasks.all fun t => task_blocked pids t == CBStatus.cbs_cont

/-- Environment inputs of one send_sigstop call: whether add_task_info's realloc
succeeds and whether task_kill(pid, SIGSTOP) succeeds. -/
structure SSEnv where
  allocOk : Bool := true
  killOk : Bool := true
  deriving DecidableEq

/-- Observable outcome of one send_sigstop call. -/
structure SSResult where
  status : CBStatus
  pids : List PidTask
  sentKill : Bool
  warned : Bool
  destroyed : Bool
  deriving DecidableEq

/-- Tail of send_sigstop (trace.c:302-337) once the task record TI exists. -/
def send_sigstop_body (env : SSEnv) (task : Task0) (pids : List PidTask)
    (ti : PidTask) : SSResult :=
  if task.beingCreated then
    { status := .cbs_cont, pids := pids, sentKill := false, warned := false, destroyed := false }
  else if task_stopped task.status = .cbs_cont then
    { status := .cbs_cont, pids := pids, sentKill := false, warned := false, destroyed := false }
  else if ti.sigstopped ∧ ¬ti.delivered then
    { status := .cbs_cont, pids := pids, sentKill := false, warned := false, destroyed := false }
  else
    let pids1 :=
      if ti.sigstopped then update_task pids task.pid (fun t => { t with delivered := false })
      else pids
    if task.status = .ps_sleeping ∧ task.isVforkParent then
      { status := .cbs_cont,
        pids := update_task pids1 task.pid (fun t => { t with vforked := true }),
        sentKill := false, warned := false, destroyed := false }
    else if env.killOk then
      { status := .cbs_cont,
        pids := update_task pids1 task.pid (fun t => { t with sigstopped := true }),
        sentKill := true, warned := false, destroyed := false }
    else
      { status := .cbs_cont, pids := pids1, sentKill := false, warned := true, destroyed := false }

/-- Embeds send_sigstop (trace.c:285-338): look up or lazily add the pid-set
row (an allocation failure destroys the event handler and aborts the walk with
CBS_STOP); skip tasks being created, tasks already stopped, tasks whose SIGSTOP
is still in flight, and sleeping vfork parents (flagged vforked); otherwise send
SIGSTOP, or merely warn when task_kill fails. -/
def send_sigstop (env : SSEnv) (task : Task0) (pids : List PidTask) : SSResult :=
  match get_task_info pids task.pid with
  | some ti => send_sigstop_body env task pids ti
  | none =>
    if env.allocOk then
      send_sigstop_body env task (pids ++ [{ pid := task.pid }]) { pid := task.pid }
    else
      { status := .cbs_stop, pids := pids, sentKill := false, warned := false, destroyed := true }

/-- The bootstrap walk of process_install_stopping_handler (trace.c:905-909):
each_task over the leader's group running send_sigstop; the walk aborts as soon
as a callback returns CBS_STOP.  Returns (aborted, final pid set, any warning
issued, handler destroyed). -/
def sigstop_walk : List (Task0 × SSEnv) → List PidTask → Bool × List PidTask × Bool × Bool
  | [], pids => (false, pids, false, false)
  | (t, e) :: ts, pids =>
    let r := send_sigstop e t pids
    if r.status = .cbs_stop then (true, r.pids, r.warned, r.destroyed)
    else
      let (ab, ps, w, d) := sigstop_walk ts r.pids
      (ab, ps, r.warned || w, r.destroyed || d)

/-- Embeds the install-time outcome of process_install_stopping_handler
(trace.c:873-920): calloc failure returns -1 with no handler; otherwise the
sigstop walk runs and a CBS_STOP from it tears the handler down and returns -1.
Returns (return value, handler torn down). -/
def process_install_stopping_handler (callocOk : Bool) (tasks : List (Task0 × SSEnv)) :
    Int × Bool :=
  if ¬callocOk then (-1, false)
  else
    let (ab, _, _, d) := sigstop_walk tasks []
    if ab then (-1, true) else (0, d)

/-- Handler states, mirroring enum process_stopping_handler state
(PSH_STOPPING / PSH_SINGLESTEP / PSH_SINKING / PSH_UGLY_WORKAROUND). -/
inductive PSHState
  | psh_stopping
  | psh_singlestep
  | psh_sinking
  | psh_ugly_workaround
  deriving DecidableEq

/-- The stopping handler, mirroring struct process_stopping_handler as trace.c
uses it: machine state, pid set, task_enabling_breakpoint (by pid; tebCleared
models the pointer being NULLed in the ugly workaround), the exiting flag, the
enabled flag and address of breakpoint_being_enabled (bbePresent models the
pointer being NULLed by post_singlestep), and the software-singlestep transient
breakpoint addresses sws_bp_addrs. -/
structure StoppingHandler where
  state : PSHState
  pids : List PidTask
  teb : Nat
  tebCleared : Bool := false
  exiting : Bool := false
  bpEnabled : Bool := true
  bpAddr : Nat := 0
  bbePresent : Bool := true
  swsAddrs : List Nat := []
  deriving DecidableEq

/-- External inputs of one process_stopping_on_event invocation: the each_task
task_blocked sweep over the live group, PT_STEP success, the keep_stepping_p
and ugly_workaround_p callback results, whether address2bpstruct finds another
breakpoint at the stepped task's IP, the curthread onstep flag, the tracee's
current IP and whether a breakpoint exists there (for ugly_workaround), and the
current event queue. -/
structure Env where
  allBlocked : Bool := false
  stepOk : Bool := true
  ksp : CBStatus := .cbs_stop
  uwp : CBStatus := .cbs_stop
  otherBp : Bool := false
  onstep : Bool := false
  ip : Nat := 0
  bpAtIp : Bool := false
  queue : List QEvent := []

/-- Embeds event_exit_p (trace.c:502-507) on an optional event. -/
def event_exit_p : Option Event0 → Bool
  | some e => e.type == .ev_exit || e.type == .ev_exit_signal
  | none => false

/-- Embeds event_exit_or_none_p (trace.c:509-514). -/
def event_exit_or_none_p : Option Event0 → Bool
  | none => true
  | some e => event_exit_p (some e) || e.type == .ev_none

/-- Embeds handle_stopping_event (trace.c:452-477): mark got_event on the
task's row, and sink a SIGSTOP delivery that answers one of our own SIGSTOPs
(sigstopped set, delivered clear), marking it delivered. -/
def handle_stopping_event (pids : List PidTask) (task : Nat) (ev : Event0) :
    List PidTask × Option Event0 :=
  match get_task_info pids task with
  | none => (pids, some ev)
  | some ti =>
    let pids1 := update_task pids task fun t => { t with got_event := true }
    if ev.type = .ev_signal ∧ ev.signum = SIGSTOP then
      if ti.sigstopped ∧ ¬ti.delivered then
        (update_task pids1 task fun t => { t with delivered := true }, none)
      else (pids1, some ev)
    else (pids1, some ev)

/-- The all-clear loop of await_sigstop_delivery: no live row still has an
undelivered SIGSTOP in flight. -/
def sigstops_all_clear (pids : List PidTask) : Bool :=
  pids.all fun t => !(t.pid != 0 && t.sigstopped && !t.delivered)

/-- Embeds await_sigstop_delivery (trace.c:516-551): if the task owed a SIGSTOP
produced some other event, continue it so the SIGSTOP can be delivered and
report not-all-clear; otherwise report whether every SIGSTOP was delivered. -/
def await_sigstop_delivery (pids : List PidTask) (task : Nat) (ev : Option Event0) :
    Bool × List Action :=
  match get_task_info pids task, ev with
  | some ti, some e =>
    if ¬event_exit_or_none_p (some e) ∧ ti.sigstopped then
      (false, [Action.pt_syscall ti.pid])
    else (sigstops_all_clear pids, [])
  | _, _ => (sigstops_all_clear pids, [])

/-- Embeds continue_for_sigstop_delivery (trace.c:486-500): PT_SYSCALL each live
row whose SIGSTOP is dispatched but undelivered and which has produced an
event. -/
def continue_for_sigstop_delivery (pids : List PidTask) : List Action :=
  (pids.filter fun t => t.pid != 0 && t.sigstopped && !t.delivered && t.got_event).map
    fun t => Action.pt_syscall t.pid

/-- Embeds all_stops_accountable (trace.c:553-563): every live row has either
produced an event or has one pending in the queue. -/
def all_stops_accountable (q : List QEvent) (pids : List PidTask) : Bool :=
  pids.all fun t => !(t.pid != 0 && !t.got_event && !have_events_for q t.pid)

/-- Embeds ugly_workaround (trace.c:345-355): enable or insert a breakpoint at
the current IP and PT_CONTINUE the process. -/
def ugly_workaround (env : Env) (pid : Nat) : List Action :=
  (if env.bpAtIp then [Action.enable_bp] else [Action.insert_bp env.ip]) ++
  [Action.pt_continue pid]

/-- Outcome of process_stopping_done: the continue_process calls issued (by
pid, in order), whether the UGLY_WORKAROUND state was entered (with its
actions), whether the handler was destroyed, and the resulting handler state. -/
structure DoneResult where
  continued : List Nat
  enteredUgly : Bool
  uglyActs : List Action
  destroyed : Bool
  state : PSHState
  deriving DecidableEq

/-- Embeds process_stopping_done (trace.c:357-389).  Unless exiting, release
the group: continue_process every live row with delivered or sysret set, then
the task that was enabling the breakpoint.  An exiting episode always jumps to
UGLY_WORKAROUND; otherwise ugly_workaround_p decides between UGLY_WORKAROUND
(CBS_CONT) and destroying the handler. -/
def process_stopping_done (env : Env) (self : StoppingHandler) : DoneResult :=
  let cp : List Nat :=
    if self.exiting then []
    else
      ((self.pids.filter fun t => t.pid != 0 && (t.delivered || t.sysret)).map
        fun t => t.pid) ++ [self.teb]
  if self.exiting then
    { continued := cp, enteredUgly := true, uglyActs := ugly_workaround env self.teb,
      destroyed := false, state := .psh_ugly_workaround }
  else
    match env.uwp with
    | .cbs_cont =>
      { continued := cp, enteredUgly := true, uglyActs := ugly_workaround env self.teb,
        destroyed := false, state := .psh_ugly_workaround }
    | _ =>
      { continued := cp, enteredUgly := false, uglyActs := [],
        destroyed := true, state := self.state }

/-- Actions of one singlestep() call (trace.c:630-656): the default
arch_sw_singlestep (trace.c:565-573) always reports SWS_HW, so the coordinator
suspends the sibling LWPs and issues PT_STEP; on PT_STEP failure
singlestep_error (trace.c:673-682) deletes the breakpoint being enabled. -/
def step_acts (env : Env) (self : StoppingHandler) : List Action :=
  [Action.suspend_threads self.teb, Action.pt_step self.teb] ++
  (if env.stepOk then [] else [Action.delete_bp self.bpAddr])

/-- Embeds post_singlestep (trace.c:658-671): continue tasks awaiting SIGSTOP
delivery, consume a breakpoint event as handled, remove the transient
software-singlestep breakpoints and drop breakpoint_being_enabled. -/
def post_singlestep (self : StoppingHandler) (ev : Option Event0) :
    StoppingHandler × Option Event0 × List Action :=
  let acts := continue_for_sigstop_delivery self.pids
  let ev2 : Option Event0 :=
    match ev with
    | some e => if e.type = .ev_breakpoint then none else some e
    | none => none
  (({ self with swsAddrs := [], bbePresent := false }), ev2,
    acts ++ self.swsAddrs.map Action.delete_bp)

/-- Result of one branch of the on_event state dispatch: updated handler, the
surviving event, the actions issued, and whether the handler was destroyed. -/
structure BranchResult where
  self : StoppingHandler
  ev : Option Event0
  acts : List Action
  destroyed : Bool
  deriving DecidableEq

/-- The PSH_SINKING body (trace.c:831-834), also reached by the psh_sinking
fall-through: when await_sigstop_delivery reports all-clear, run
process_stopping_done. -/
def sinking_body (env : Env) (self : StoppingHandler) (task : Nat) (ev : Option Event0)
    (acts : List Action) : BranchResult :=
  let (allClear, aw) := await_sigstop_delivery self.pids task ev
  if allClear then
    let d := process_stopping_done env self
    { self := { self with state := d.state }, ev := ev,
      acts := acts ++ aw ++ d.continued.map Action.continue_proc ++ d.uglyActs ++
        (if d.destroyed then [Action.destroy_handler] else []),
      destroyed := d.destroyed }
  else { self := self, ev := ev, acts := acts ++ aw, destroyed := false }

/-- The PSH_SINGLESTEP branch of process_stopping_on_event (trace.c:774-826):
for an event of the stepped task, fire other breakpoints found at its IP, keep
single-stepping through signals (queued for later) and through
keep_stepping_p's CBS_CONT (sinking the singlestep breakpoint event), and
otherwise re-enable the stepped-over breakpoint, run post_singlestep and fall
through to PSH_SINKING. -/
def singlestep_branch (env : Env) (self : StoppingHandler) (task : Nat)
    (ev1 : Option Event0) : BranchResult :=
  match ev1 with
  | none => { self := self, ev := none, acts := [], destroyed := false }
  | some e =>
    if task = self.teb then
      let hitActs := if e.type = .ev_breakpoint && env.otherBp then [Action.bp_on_hit] else []
      if e.type = .ev_signal then
        if env.stepOk then
          { self := self, ev := some e, acts := hitActs ++ step_acts env self, destroyed := false }
        else
          let (s2, ev2, a2) := post_singlestep self (some e)
          sinking_body env { s2 with state := .psh_sinking } task ev2
            (hitActs ++ step_acts env self ++ a2)
      else
        match env.ksp with
        | .cbs_cont =>
          let evs : Option Event0 := if e.type = .ev_breakpoint then none else some e
          if env.stepOk then
            { self := self, ev := evs, acts := hitActs ++ step_acts env self, destroyed := false }
          else
            let (s2, ev2, a2) := post_singlestep self evs
            sinking_body env { s2 with state := .psh_sinking } task ev2
              (hitActs ++ step_acts env self ++ a2)
        | _ =>
          let reen := if self.bpEnabled then [Action.enable_bp] else []
          let (s2, ev2, a2) := post_singlestep self (some e)
          sinking_body env { s2 with state := .psh_sinking } task ev2 (hitActs ++ reen ++ a2)
    else { self := self, ev := some e, acts := [], destroyed := false }

/-- The PSH_UGLY_WORKAROUND branch (trace.c:836-849): undo breakpoint events
(clearing task_enabling_breakpoint when the stepped task trips it) and, once
the stepped task is done and all stops are accountable, detach the group. -/
def ugly_branch (env : Env) (self : StoppingHandler) (task : Nat)
    (ev1 : Option Event0) : BranchResult :=
  match ev1 with
  | none => { self := self, ev := none, acts := [], destroyed := false }
  | some e =>
    let hit := e.type = .ev_breakpoint
    let self1 :=
      if hit then { self with tebCleared := self.tebCleared || task == self.teb } else self
    let a1 : List Action := if hit then [Action.undo_bp e.brk_addr] else []
    if self1.tebCleared && all_stops_accountable env.queue self1.pids then
      { self := self1, ev := none,
        acts := a1 ++ (if hit then [Action.undo_bp e.brk_addr] else []) ++
          [Action.detach_leader, Action.destroy_handler],
        destroyed := true }
    else { self := self1, ev := some e, acts := a1, destroyed := false }

/-- The PSH_STOPPING branch (trace.c:765-772): once every task in the group is
blocked, on_all_stopped runs; trace.c installs ptrace_disable_and_singlestep
(trace.c:699-715) in every episode, which disables the breakpoint being
enabled, single-steps the stepped task and advances to PSH_SINGLESTEP. -/
def stopping_branch (env : Env) (self : StoppingHandler) (ev1 : Option Event0) :
    BranchResult :=
  if env.allBlocked then
    { self := { self with state := .psh_singlestep }, ev := ev1,
      acts := (if self.bpEnabled then [Action.disable_bp] else []) ++ step_acts env self,
      destroyed := false }
  else { self := self, ev := ev1, acts := [], destroyed := false }

/-- Full outcome of one process_stopping_on_event invocation: the handler, the
event returned to the dispatcher (none means sunk, handled or queued), the
event enqueued for later delivery (if any), the actions issued, and whether the
handler was destroyed. -/
structure OnEventResult where
  self : StoppingHandler
  ret : Option Event0
  queued : Option QEvent
  acts : List Action
  destroyed : Bool
  deriving DecidableEq

/-- Outcome of the event pre-processing prologue of process_stopping_on_event
(trace.c:741-762): the updated pid set, the surviving event, and the
event_to_queue flag. -/
structure PreResult where
  pids : List PidTask
  ev : Option Event0
  etq : Bool
  deriving DecidableEq

/-- Prologue of process_stopping_on_event (trace.c:741-762): run
handle_stopping_event (which may sink an expected SIGSTOP), compute
event_to_queue, zero the row's pid on exit events, and record sysret events in
the row while exempting them from queueing.  N.B. trace.c:761 dereferences
task_info without a NULL check at the sysret update; the functional update is
simply a no-op when the row is absent. -/
def preprocess (pids : List PidTask) (task : Nat) (ev : Event0) : PreResult :=
  let hasInfo := (get_task_info pids task).isSome
  let (pids1, ev1) := handle_stopping_event pids task ev
  let etq0 := !event_exit_or_none_p ev1
  let pids2 :=
    if event_exit_p ev1 && hasInfo then update_task pids1 task (fun t => { t with pid := 0 })
    else pids1
  match ev1 with
  | some e =>
    if e.type = .ev_sysret then
      { pids := update_task pids2 task (fun t => { t with sysret := true }), ev := ev1,
        etq := false }
    else { pids := pids2, ev := ev1, etq := etq0 }
  | none => { pids := pids2, ev := ev1, etq := etq0 }

/-- The state-machine dispatch of process_stopping_on_event (trace.c:764-850). -/
def dispatch (env : Env) (self : StoppingHandler) (task : Nat)
    (ev1 : Option Event0) : BranchResult :=
  match self.state with
  | .psh_stopping => stopping_branch env self ev1
  | .psh_singlestep => singlestep_branch env self task ev1
  | .psh_sinking => sinking_body env self task ev1 []
  | .psh_ugly_workaround => ugly_branch env self task ev1

/-- Epilogue of process_stopping_on_event (trace.c:852-857): a surviving event
still marked for queueing is enqueued and sunk; otherwise it is returned to the
dispatcher. -/
def final_gate (b : BranchResult) (etq : Bool) (task : Nat) : OnEventResult :=
  match b.ev, etq with
  | some e, true =>
    { self := b.self, ret := none, queued := some ⟨some task, e⟩, acts := b.acts,
      destroyed := b.destroyed }
  | some e, false =>
    { self := b.self, ret := some e, queued := none, acts := b.acts, destroyed := b.destroyed }
  | none, _ =>
    { self := b.self, ret := none, queued := none, acts := b.acts, destroyed := b.destroyed }

/-- Embeds process_stopping_on_event (trace.c:729-858).  TASK is the pid of
event->proc. -/
def process_stopping_on_event (env : Env) (self : StoppingHandler) (task : Nat)
    (ev : Event0) : OnEventResult :=
  let p := preprocess self.pids task ev
  let b := dispatch env { self with pids := p.pids } task p.ev
  final_gate b p.etq task

/-! Concrete fixtures used by witnesses and counterexamples below. -/

/-- A fully readable tracee memory whose every word reads as 0x401000. -/
def memW : Mem := ⟨fun _ => true, fun _ => 4198400⟩

/-- An UNRESOLVED PLT symbol: PLT entry at 0x401000, .plt slot at 0x600100,
resolved_value holding the PLT entry address. -/
def symW : LibSym := ⟨"f", 4198400, .unresolved, 6291712, 4198400⟩

/-- memW after the dynamic linker writes the callee 0x7f00 into the slot. -/
def memW1 : Mem := mem_write memW 6291712 32512

/-- memW1 after keep_stepping_p writes the PLT entry address back. -/
def memW2 : Mem := mem_write memW1 6291712 4198400

/-- symW once migrated to RESOLVED with the observed callee. -/
def symW2 : LibSym := { symW with pltType := .resolved, resolved_value := 32512 }

/-- An ELF context for a stub-less PPC64 binary. -/
def lteW : Ltelf := ⟨.em_ppc64, false, 65536, 6291456, 256, []⟩

/-- A breakpoint on a RESOLVED PLT symbol. -/
def bpW : Breakpoint := ⟨4198400, symW2, true⟩

/-- A one-row stopping-handler fixture in the STOPPING state. -/
def selfW : StoppingHandler :=
  { state := .psh_stopping, pids := [{ pid := 7, sigstopped := true }], teb := 1 }

/-- selfW with the exiting flag raised. -/
def selfWexit : StoppingHandler := { selfW with state := .psh_sinking, exiting := true }

/-- A live task used by the send_sigstop witnesses. -/
def taskW : Task0 := { pid := 9, status := .ps_other }

/-- A sleeping vfork parent. -/
def taskV : Task0 := { pid := 3, status := .ps_sleeping, isVforkParent := true }

/-! Supporting lemmas for the PLT machinery. -/

@[simp]
lemma mem_write_readable (m : Mem) (a v : Nat) : (mem_write m a v).readable = m.readable := rfl

@[simp]
lemma mem_write_val_self (m : Mem) (a v : Nat) : (mem_write m a v).val a = v := by
  simp [mem_write]

lemma keep_stepping_p_cont (m : Mem) (sym : LibSym)
    (hr : m.readable sym.plt_slot_addr = true)
    (hv : m.val sym.plt_slot_addr = sym.resolved_value) :
    keep_stepping_p m sym = (.cbs_cont, sym, m) := by
  simp [keep_stepping_p, read_plt_slot_value, hr, hv]

lemma keep_stepping_p_stop (m : Mem) (sym : LibSym)
    (hr : m.readable sym.plt_slot_addr = true)
    (hv : m.val sym.plt_slot_addr ≠ sym.resolved_value) :
    keep_stepping_p m sym =
      (.cbs_stop,
       { sym with pltType := .resolved, resolved_value := m.val sym.plt_slot_addr },
       mem_write m sym.plt_slot_addr sym.resolved_value) := by
  simp [keep_stepping_p, read_plt_slot_value, unresolve_plt_slot, hr, hv]

lemma resolve_episode_spec (ws : List Nat) :
    ∀ (m : Mem) (sym : LibSym), m.readable sym.plt_slot_addr = true →
      ∀ s2 m2, resolve_episode m sym ws = some (s2, m2) →
        m2.val sym.plt_slot_addr = sym.resolved_value ∧ s2.pltType = .resolved ∧
          s2.plt_slot_addr = sym.plt_slot_addr := by
  induction ws with
  | nil =>
    intro m sym hr s2 m2 h
    simp [resolve_episode] at h
  | cons w ws ih =>
    intro m sym hr s2 m2 h
    simp only [resolve_episode] at h
    by_cases hw : w = sym.resolved_value
    · rw [keep_stepping_p_cont (mem_write m sym.plt_slot_addr w) sym (by simpa using hr)
        (by simpa using hw)] at h
      exact ih (mem_write m sym.plt_slot_addr w) sym (by simpa using hr) s2 m2 h
    · rw [keep_stepping_p_stop (mem_write m sym.plt_slot_addr w) sym (by simpa using hr)
        (by simpa using hw)] at h
      simp only [Option.some.injEq, Prod.mk.injEq] at h
      obtain ⟨hs, hm⟩ := h
      refine ⟨?_, ?_, ?_⟩
      · rw [← hm]; simp
      · rw [← hs]
      · rw [← hs]

/-- C1: for a PLT symbol in UNRESOLVED state (resolved_value = the PLT entry
address), each keep_stepping_p invocation reads the tracee's PLT slot and
returns CBS_CONT, changing nothing, while the slot still equals resolved_value;
the first invocation that sees a different slot value writes resolved_value
(the PLT entry address) back into the slot, stores the observed value in
resolved_value, migrates the symbol to RESOLVED and returns CBS_STOP; hence
after any completed resolution episode the PLT slot holds the original PLT
entry address and the symbol is RESOLVED. -/
theorem claim_C1_plt_episode_restores_slot (m : Mem) (sym : LibSym)
    (hr : m.readable sym.plt_slot_addr = true)
    (hu : sym.pltType = .unresolved) :
    (m.val sym.plt_slot_addr = sym.resolved_value →
      keep_stepping_p m sym = (.cbs_cont, sym, m)) ∧
    (m.val sym.plt_slot_addr ≠ sym.resolved_value →
      keep_stepping_p m sym =
        (.cbs_stop,
         { sym with pltType := .resolved, resolved_value := m.val sym.plt_slot_addr },
         mem_write m sym.plt_slot_addr sym.resolved_value) ∧
      (mem_write m sym.plt_slot_addr sym.resolved_value).val sym.plt_slot_addr
        = sym.resolved_value) ∧
    (∀ (ws : List Nat) (s2 : LibSym) (m2 : Mem),
      resolve_episode m sym ws = some (s2, m2) →
        m2.val sym.plt_slot_addr = sym.resolved_value ∧ s2.pltType = .resolved) := by
  refine ⟨fun hv => keep_stepping_p_cont m sym hr hv,
          fun hv => ⟨keep_stepping_p_stop m sym hr hv, by simp⟩,
          fun ws s2 m2 h => ?_⟩
  obtain ⟨h1, h2, _⟩ := resolve_episode_spec ws m sym hr s2 m2 h
  exact ⟨h1, h2⟩

/-- Witness for C1 at a concrete unresolved symbol: the predicate continues
while the slot holds the entry address, and a one-write episode ends with the
slot restored to the entry address and the symbol RESOLVED. -/
theorem claim_C1_witness :
    keep_stepping_p memW symW = (.cbs_cont, symW, memW) ∧
    memW2.val symW.plt_slot_addr = symW.resolved_value ∧ symW2.pltType = .resolved := by
  refine ⟨(claim_C1_plt_episode_restores_slot memW symW rfl rfl).1 rfl, ?_⟩
  exact (claim_C1_plt_episode_restores_slot memW symW rfl rfl).2.2 [32512] symW2 memW2 rfl

lemma rechain_stubs_no_match (a_name : String) :
    ∀ (ss : List LibSym) (c : List LibSym), (∀ s ∈ ss, s.name ≠ a_name) →
      rechain_stubs a_name ss c = (c, ss) := by
  intro ss
  induction ss with
  | nil => intro c _; rfl
  | cons s ss ih =>
    intro c h
    have hs : s.name ≠ a_name := h s (by simp)
    simp only [rechain_stubs, if_neg hs]
    rw [ih c (fun t ht => h t (by simp [ht]))]

/-- C6: on stub-less PPC64, arch_elf_add_plt_entry classifies a PLT symbol from
the live process image: a .plt slot equal to the PLT entry address or zero
yields an UNRESOLVED symbol with resolved_value = the PLT entry address and the
tracee untouched; any other slot value is written back to the PLT entry address
in the tracee and yields a RESOLVED symbol with resolved_value = the previously
read slot value. -/
theorem claim_C6_add_plt_entry_classification (m : Mem) (lte : Ltelf) (a_name : String)
    (r_offset ndx : Nat)
    (hm : lte.machine = .em_ppc64)
    (hstub : ∀ s ∈ lte.stubs, s.name ≠ a_name)
    (hr : m.readable r_offset = true) :
    (m.val r_offset = arch_plt_sym_val lte ndx r_offset ∨ m.val r_offset = 0 →
      arch_elf_add_plt_entry m lte a_name r_offset ndx true =
        { status := .plt_ok,
          syms := [⟨a_name, arch_plt_sym_val lte ndx r_offset, .unresolved, r_offset,
                    arch_plt_sym_val lte ndx r_offset⟩],
          mem := m, stubs := lte.stubs }) ∧
    (m.val r_offset ≠ arch_plt_sym_val lte ndx r_offset → m.val r_offset ≠ 0 →
      arch_elf_add_plt_entry m lte a_name r_offset ndx true =
        { status := .plt_ok,
          syms := [⟨a_name, arch_plt_sym_val lte ndx r_offset, .resolved, r_offset,
                    m.val r_offset⟩],
          mem := mem_write m r_offset (arch_plt_sym_val lte ndx r_offset),
          stubs := lte.stubs }) := by
  have hnp : ¬lte.machine = .em_ppc := by rw [hm]; intro h; cases h
  constructor
  · intro hv
    simp only [arch_elf_add_plt_entry, if_neg hnp, rechain_stubs_no_match a_name lte.stubs [] hstub]
    simp [read_plt_slot_value, hr, hv]
  · intro hv h0
    simp only [arch_elf_add_plt_entry, if_neg hnp, rechain_stubs_no_match a_name lte.stubs [] hstub]
    simp [read_plt_slot_value, unresolve_plt_slot, hr, hv, h0]

/-- Witness for C6: at the concrete fixture the slot value 0x401000 differs
from the PLT entry address 0x10010 and from zero, so the symbol comes back
RESOLVED with the old slot value and the slot is rewritten to the entry
address. -/
theorem claim_C6_witness :
    arch_elf_add_plt_entry memW lteW "g" 6291712 2 true =
      { status := .plt_ok,
        syms := [⟨"g", 65552, .resolved, 6291712, 4198400⟩],
        mem := mem_write memW 6291712 65552, stubs := [] } :=
  (claim_C6_add_plt_entry_classification memW lteW "g" 6291712 2 rfl
    (by intro s hs; cases hs) rfl).2 (by decide) (by decide)

/-- C7: when a breakpoint whose symbol is RESOLVED is hit, ppc64_plt_bp_continue
sets the tracee's instruction pointer to resolved_value and continues the
process, installing no stopping handler and leaving the breakpoint intact. -/
theorem claim_C7_resolved_redirect (installOk : Bool) (bp : Breakpoint)
    (h : bp.libsym.pltType = .resolved) :
    ppc64_plt_bp_continue installOk bp =
      { setIP := some bp.libsym.resolved_value, continuedProcess := true,
        installedHandler := false, bp := bp, fellBack := false, aborted := false } := by
  simp [ppc64_plt_bp_continue, h]

/-- Witness for C7 at a concrete RESOLVED breakpoint. -/
theorem claim_C7_witness :
    ppc64_plt_bp_continue true bpW =
      { setIP := some 32512, continuedProcess := true, installedHandler := false,
        bp := bpW, fellBack := false, aborted := false } :=
  claim_C7_resolved_redirect true bpW rfl

/-- Counterexample for C10: with 64-bit unsigned wraparound the asserted
disjunction is not a tautology even when plt_size > 0 — at
plt_addr = 2^64 - 1, plt_size = 1, the slot address 0 fails both disjuncts. -/
theorem claim_C10_counterexample :
    plt_slot_range_check (2 ^ 64 - 1) 1 0 = false ∧ 0 < 1 := by
  constructor
  · decide
  · decide

/-- C10 as amended: whenever plt_addr + plt_size does not wrap around 2^64 (as
for any real .plt section), the asserted range condition holds for every value
of plt_slot_addr, so the assertion can never fire and a slot address outside
the .plt section is never rejected. -/
theorem claim_C10_range_check_no_overflow (plt_addr plt_size a : Nat)
    (h : plt_addr + plt_size < 2 ^ 64) :
    plt_slot_range_check plt_addr plt_size a = true := by
  simp only [plt_slot_range_check, Nat.mod_eq_of_lt h, Bool.or_eq_true, decide_eq_true_eq]
  omega

/-- Witness for C10's amended statement at a concrete non-wrapping section. -/
theorem claim_C10_witness :
    6291456 + 256 < 2 ^ 64 ∧ plt_slot_range_check 6291456 256 5 = true :=
  ⟨by decide, claim_C10_range_check_no_overflow 6291456 256 5 (by decide)⟩

/-! Supporting lemmas for the FreeBSD stopping coordinator. -/

lemma event_for_pid_iff (pid : Nat) (e : QEvent) :
    event_for_pid pid e = true ↔ e.proc = some pid := by
  obtain ⟨p, ev⟩ := e
  cases p <;> simp [event_for_pid]

lemma have_events_for_iff (q : List QEvent) (pid : Nat) :
    have_events_for q pid = true ↔ ∃ e ∈ q, e.proc = some pid := by
  simp only [have_events_for, List.any_eq_true, event_for_pid_iff]

/-- C2: continue_process(pid) issues the syscall-mode continue (PT_SYSCALL) if
and only if the event queue contains no event whose process has that pid; with
queued events for pid the tracee is left stopped. -/
theorem claim_C2_continue_process_iff (q : List QEvent) (onstep : Bool) (pid : Nat) :
    Action.pt_syscall pid ∈ continue_process q onstep pid ↔ ¬∃ e ∈ q, e.proc = some pid := by
  rw [← have_events_for_iff]
  cases h : have_events_for q pid <;> cases onstep <;>
    simp [continue_process, h]

lemma mem_filter_map_pid (l : List PidTask) (p : Nat) :
    (p ∈ (l.filter fun t => t.pid != 0 && (t.delivered || t.sysret)).map fun t => t.pid) ↔
      ∃ t ∈ l, t.pid = p ∧ t.pid ≠ 0 ∧ (t.delivered = true ∨ t.sysret = true) := by
  simp only [List.mem_map, List.mem_filter, Bool.and_eq_true, Bool.or_eq_true, bne_iff_ne]
  aesop

lemma done_continued_eq (env : Env) (self : StoppingHandler) (he : self.exiting = false) :
    (process_stopping_done env self).continued =
      ((self.pids.filter fun t => t.pid != 0 && (t.delivered || t.sysret)).map
        fun t => t.pid) ++ [self.teb] := by
  cases huw : env.uwp <;> simp [process_stopping_done, he, huw]

/-- C8: process_stopping_done's release contract.  With exiting clear it calls
continue_process exactly for the live rows with delivered or sysret set and
then for the task enabling the breakpoint (last), then destroys the handler
unless ugly_workaround_p returns CBS_CONT, in which case it enters
UGLY_WORKAROUND; with exiting set it continues nobody, destroys nothing and
always enters UGLY_WORKAROUND. -/
theorem claim_C8_stopping_done_contract (env : Env) (self : StoppingHandler) :
    ((self.exiting = true →
      (process_stopping_done env self).continued = [] ∧
      (process_stopping_done env self).enteredUgly = true ∧
      (process_stopping_done env self).destroyed = false ∧
      (process_stopping_done env self).state = .psh_ugly_workaround)) ∧
    (self.exiting = false →
      (∀ p, p ∈ (process_stopping_done env self).continued ↔
        (∃ t ∈ self.pids, t.pid = p ∧ t.pid ≠ 0 ∧ (t.delivered = true ∨ t.sysret = true)) ∨
          p = self.teb) ∧
      (process_stopping_done env self).continued.getLast? = some self.teb ∧
      (env.uwp = .cbs_cont →
        (process_stopping_done env self).enteredUgly = true ∧
        (process_stopping_done env self).destroyed = false ∧
        (process_stopping_done env self).state = .psh_ugly_workaround) ∧
      (env.uwp ≠ .cbs_cont →
        (process_stopping_done env self).destroyed = true ∧
        (process_stopping_done env self).enteredUgly = false)) := by
  constructor
  · intro he
    simp [process_stopping_done, he]
  · intro he
    refine ⟨?_, ?_, ?_, ?_⟩
    · intro p
      rw [done_continued_eq env self he, List.mem_append, mem_filter_map_pid]
      simp
    · rw [done_continued_eq env self he, List.getLast?_append_cons]
      rfl
    · intro huw
      simp [process_stopping_done, he, huw]
    · intro huw
      cases huw2 : env.uwp
      · simp [process_stopping_done, he, huw2]
      · exact absurd huw2 huw
      · simp [process_stopping_done, he, huw2]

/-- Witness for C8: both release modes at concrete handlers — the exiting
fixture enters UGLY_WORKAROUND continuing nobody, and the normal fixture with
ugly_workaround_p returning CBS_STOP destroys the handler. -/
theorem claim_C8_witness :
    ((process_stopping_done {} selfWexit).continued = [] ∧
      (process_stopping_done {} selfWexit).enteredUgly = true ∧
      (process_stopping_done {} selfWexit).destroyed = false ∧
      (process_stopping_done {} selfWexit).state = .psh_ugly_workaround) ∧
    (process_stopping_done {} selfW).continued.getLast? = some selfW.teb ∧
    (process_stopping_done {} selfW).destroyed = true :=
  ⟨(claim_C8_stopping_done_contract {} selfWexit).1 rfl,
   ((claim_C8_stopping_done_contract {} selfW).2 rfl).2.1,
   (((claim_C8_stopping_done_contract {} selfW).2 rfl).2.2.2 (by decide)).1⟩

lemma send_sigstop_body_status (env : SSEnv) (task : Task0) (pids : List PidTask)
    (ti : PidTask) : (send_sigstop_body env task pids ti).status = .cbs_cont := by
  unfold send_sigstop_body
  repeat' split <;> try rfl

lemma send_sigstop_status_alloc (env : SSEnv) (task : Task0) (pids : List PidTask)
    (h : env.allocOk = true) : (send_sigstop env task pids).status = .cbs_cont := by
  unfold send_sigstop
  cases hg : get_task_info pids task.pid with
  | some ti => exact send_sigstop_body_status env task pids ti
  | none => rw [if_pos h]; exact send_sigstop_body_status _ _ _ _

lemma sigstop_walk_no_abort (tasks : List (Task0 × SSEnv)) :
    ∀ pids, (∀ te ∈ tasks, (Prod.snd te).allocOk = true) →
      (sigstop_walk tasks pids).1 = false := by
  induction tasks with
  | nil => intro pids _; rfl
  | cons te ts ih =>
    intro pids h
    obtain ⟨t, e⟩ := te
    have h1 : e.allocOk = true := h (t, e) (by simp)
    have h2 : (send_sigstop e t pids).status ≠ .cbs_stop := by
      rw [send_sigstop_status_alloc e t pids h1]; intro hc; cases hc
    simp only [sigstop_walk, if_neg h2]
    have := ih (send_sigstop e t pids).pids (fun te hte => h te (by simp [hte]))
    rcases hw : sigstop_walk ts (send_sigstop e t pids).pids with ⟨ab, ps, w, d⟩
    rw [hw] at this
    simpa [hw] using this

/-- Counterexample for C4: a failed task_kill(SIGSTOP) does not abort the
episode — send_sigstop returns CBS_CONT with only a warning, the handler is
not destroyed, and process_install_stopping_handler still succeeds. -/
theorem claim_C4_counterexample :
    (send_sigstop ⟨true, false⟩ taskW []).status = .cbs_cont ∧
    (send_sigstop ⟨true, false⟩ taskW []).warned = true ∧
    (send_sigstop ⟨true, false⟩ taskW []).destroyed = false ∧
    (send_sigstop ⟨true, false⟩ taskW []).sentKill = false ∧
    process_install_stopping_handler true [(taskW, ⟨true, false⟩)] = (0, false) := by
  refine ⟨by decide, by decide, by decide, by decide, by decide⟩

/-- C4 as amended: a task_kill(SIGSTOP) failure during the bootstrap walk is
not fatal — send_sigstop merely warns, leaves the row's sigstopped flag clear
and the walk continues; the episode is aborted with handler destruction only
when adding the task record fails (allocation failure), which is the only way
send_sigstop returns CBS_STOP. -/
theorem claim_C4_sigstop_failure_nonfatal :
    (∀ (env : SSEnv) (task : Task0) (pids : List PidTask) (ti : PidTask),
      env.killOk = false → get_task_info pids task.pid = some ti →
      ti.sigstopped = false → task.beingCreated = false →
      task_stopped task.status = .cbs_stop →
      ¬(task.status = .ps_sleeping ∧ task.isVforkParent = true) →
      send_sigstop env task pids =
        { status := .cbs_cont, pids := pids, sentKill := false, warned := true,
          destroyed := false }) ∧
    (∀ (env : SSEnv) (task : Task0) (pids : List PidTask),
      env.allocOk = true → (send_sigstop env task pids).status = .cbs_cont) ∧
    (∀ (tasks : List (Task0 × SSEnv)) (pids : List PidTask),
      (∀ te ∈ tasks, (Prod.snd te).allocOk = true) →
      (sigstop_walk tasks pids).1 = false) ∧
    (∀ tasks : List (Task0 × SSEnv),
      (∀ te ∈ tasks, (Prod.snd te).allocOk = true) →
      (process_install_stopping_handler true tasks).1 = 0) := by
  refine ⟨?_, send_sigstop_status_alloc, sigstop_walk_no_abort, ?_⟩
  · intro env task pids ti hk hg hss hbc hst hvf
    have hb : send_sigstop env task pids = send_sigstop_body env task pids ti := by
      unfold send_sigstop
      rw [hg]
    rw [hb]
    simp [send_sigstop_body, hbc, hst, hss, hk, hvf]
  · intro tasks h
    unfold process_install_stopping_handler
    rw [if_neg (by simp)]
    have := sigstop_walk_no_abort tasks [] h
    rcases hw : sigstop_walk tasks [] with ⟨ab, ps, w, d⟩
    rw [hw] at this
    subst this
    simp

lemma get_task_info_append_none (l : List PidTask) (t : PidTask) (p : Nat)
    (h : get_task_info l p = none) :
    get_task_info (l ++ [t]) p = if t.pid = p then some t else none := by
  induction l with
  | nil => rfl
  | cons s ss ih =>
    by_cases hs : s.pid = p
    · simp [get_task_info, hs] at h
    · simp only [get_task_info, if_neg hs] at h
      simpa [get_task_info, hs] using ih h

lemma get_update_of_preserve (l : List PidTask) (p : Nat) (f : PidTask → PidTask)
    (hf : ∀ t, (f t).pid = t.pid) :
    get_task_info (update_task l p f) p = (get_task_info l p).map f := by
  induction l with
  | nil => rfl
  | cons s ss ih =>
    by_cases hs : s.pid = p
    · simp [update_task, get_task_info, hs, hf s]
    · simp only [update_task, if_neg hs, get_task_info, hf s]
      exact ih

lemma send_sigstop_body_sentKill_vfork (env : SSEnv) (task : Task0)
    (pids : List PidTask) (ti : PidTask)
    (hs : task.status = .ps_sleeping) (hv : task.isVforkParent = true) :
    (send_sigstop_body env task pids ti).sentKill = false := by
  by_cases h1 : task.beingCreated = true
  · simp [send_sigstop_body, h1]
  by_cases h2 : ti.sigstopped = true
  all_goals by_cases h3 : ti.delivered = true
  all_goals simp [send_sigstop_body, h1, h2, h3, hs, hv, task_stopped]

lemma send_sigstop_sentKill_vfork (env : SSEnv) (task : Task0) (pids : List PidTask)
    (hs : task.status = .ps_sleeping) (hv : task.isVforkParent = true) :
    (send_sigstop env task pids).sentKill = false := by
  unfold send_sigstop
  cases hg : get_task_info pids task.pid with
  | some ti => exact send_sigstop_body_sentKill_vfork env task pids ti hs hv
  | none =>
    by_cases ha : env.allocOk = true
    · rw [if_pos ha]
      exact send_sigstop_body_sentKill_vfork _ _ _ _ hs hv
    · rw [if_neg ha]

lemma task_blocked_vforked (pids : List PidTask) (task : Task0) (ti : PidTask)
    (hg : get_task_info pids task.pid = some ti) (hv : ti.vforked = true) :
    task_blocked pids task = .cbs_cont := by
  simp [task_blocked, hg, hv]

/-- C5: a vfork parent in its OS-level sleep is never SIGSTOPped by
send_sigstop, its (fresh) pid-set row is flagged vforked with sigstopped left
clear, and task_blocked treats any task with a vforked row as blocked, so a
vfork parent never prevents the all-stopped predicate from holding. -/
theorem claim_C5_vfork_parent_blocked :
    (∀ (env : SSEnv) (task : Task0) (pids : List PidTask),
      task.isVforkParent = true → task.status = .ps_sleeping →
      (send_sigstop env task pids).sentKill = false) ∧
    (∀ (env : SSEnv) (task : Task0) (pids : List PidTask),
      task.isVforkParent = true → task.status = .ps_sleeping →
      task.beingCreated = false → env.allocOk = true →
      get_task_info pids task.pid = none →
      get_task_info (send_sigstop env task pids).pids task.pid =
        some { pid := task.pid, sigstopped := false, delivered := false, vforked := true,
               sysret := false, got_event := false }) ∧
    (∀ (pids : List PidTask) (task : Task0) (ti : PidTask),
      get_task_info pids task.pid = some ti → ti.vforked = true →
      task_blocked pids task = .cbs_cont) ∧
    (∀ (pids : List PidTask) (task : Task0) (tasks : List Task0) (ti : PidTask),
      get_task_info pids task.pid = some ti → ti.vforked = true →
      all_tasks_blocked pids (task :: tasks) = all_tasks_blocked pids tasks) := by
  refine ⟨fun env task pids hv hs => send_sigstop_sentKill_vfork env task pids hs hv,
          ?_, task_blocked_vforked, ?_⟩
  · intro env task pids hv hs hbc ha hg
    have hb : send_sigstop env task pids =
        send_sigstop_body env task (pids ++ [{ pid := task.pid }]) { pid := task.pid } := by
      unfold send_sigstop
      rw [hg, if_pos ha]
    have hpids : (send_sigstop_body env task (pids ++ [{ pid := task.pid }])
        { pid := task.pid }).pids =
        update_task (pids ++ [{ pid := task.pid }]) task.pid
          (fun t => { t with vforked := true }) := by
      simp [send_sigstop_body, hbc, hs, hv, task_stopped]
    rw [hb, hpids]
    clear hb hpids
    induction pids with
    | nil => simp [update_task, get_task_info]
    | cons s ss ih =>
      have hsp : ¬(s.pid = task.pid) := by
        intro h
        simp [get_task_info, h] at hg
      have hg2 : get_task_info ss task.pid = none := by
        simpa [get_task_info, hsp] using hg
      simp only [List.cons_append, update_task, if_neg hsp, get_task_info]
      exact ih hg2
  · intro pids task tasks ti hg hv
    have h := task_blocked_vforked pids task ti hg hv
    simp only [all_tasks_blocked, List.all_cons, h]
    simp

/-- Witness for C5: the concrete sleeping vfork parent taskV is not killed, its
fresh row is marked vforked, and a vforked row counts as blocked. -/
theorem claim_C5_witness :
    (send_sigstop ⟨true, true⟩ taskV []).sentKill = false ∧
    get_task_info (send_sigstop ⟨true, true⟩ taskV []).pids 3 =
      some { pid := 3, sigstopped := false, delivered := false, vforked := true,
             sysret := false, got_event := false } ∧
    task_blocked [{ pid := 3, vforked := true }] taskV = .cbs_cont :=
  ⟨claim_C5_vfork_parent_blocked.1 ⟨true, true⟩ taskV [] rfl rfl,
   claim_C5_vfork_parent_blocked.2.1 ⟨true, true⟩ taskV [] rfl rfl rfl rfl rfl,
   claim_C5_vfork_parent_blocked.2.2.1 [{ pid := 3, vforked := true }] taskV
     { pid := 3, vforked := true } rfl rfl⟩

lemma map_pid_update_task (l : List PidTask) (p : Nat) (f : PidTask → PidTask)
    (hf : ∀ t, (f t).pid = t.pid) :
    (update_task l p f).map (fun t => t.pid) = l.map fun t => t.pid := by
  induction l with
  | nil => rfl
  | cons s ss ih =>
    by_cases hs : s.pid = p
    · simp [update_task, hs, hf s]
    · simp [update_task, hs, ih]

lemma mem_update_zero (p : Nat) (hp : p ≠ 0) :
    ∀ (l : List PidTask), (l.map fun t => t.pid).Nodup →
      ∀ t ∈ update_task l p (fun t => { t with pid := 0 }), t.pid ≠ p := by
  intro l
  induction l with
  | nil =>
    intro _ t ht
    simp [update_task] at ht
  | cons s ss ih =>
    intro hnd t ht
    have hnd' : ((s :: ss).map fun t => t.pid).Nodup := hnd
    rw [List.map_cons] at hnd'
    have h1 : s.pid ∉ ss.map fun t => t.pid := (List.nodup_cons.mp hnd').1
    have h2 : (ss.map fun t => t.pid).Nodup := (List.nodup_cons.mp hnd').2
    by_cases hs : s.pid = p
    · simp only [update_task, if_pos hs] at ht
      rcases List.mem_cons.mp ht with h | h
      · rw [h]
        exact Ne.symm hp
      · intro hc
        exact (hs ▸ h1) (List.mem_map.mpr ⟨t, h, hc⟩)
    · simp only [update_task, if_neg hs] at ht
      rcases List.mem_cons.mp ht with h | h
      · rw [h]; exact hs
      · exact ih h2 t h

lemma all_stops_accountable_filter (q : List QEvent) (l : List PidTask) :
    all_stops_accountable q (l.filter fun t => t.pid != 0) = all_stops_accountable q l := by
  induction l with
  | nil => rfl
  | cons s ss ih =>
    cases hs : (s.pid != 0) with
    | false =>
      have hfil : List.filter (fun t => t.pid != 0) (s :: ss)
          = List.filter (fun t => t.pid != 0) ss := by
        simp [List.filter_cons, hs]
      rw [hfil, ih]
      unfold all_stops_accountable
      rw [List.all_cons]
      simp [hs]
    | true =>
      have hfil : List.filter (fun t => t.pid != 0) (s :: ss)
          = s :: List.filter (fun t => t.pid != 0) ss := by
        simp [List.filter_cons, hs]
      rw [hfil]
      unfold all_stops_accountable
      rw [List.all_cons, List.all_cons]
      congr 1

lemma post_singlestep_self (self : StoppingHandler) (ev : Option Event0) :
    (post_singlestep self ev).1 = { self with swsAddrs := [], bbePresent := false } := rfl

lemma sinking_body_self_pids (env : Env) (self : StoppingHandler) (task : Nat)
    (ev : Option Event0) (acts : List Action) :
    (sinking_body env self task ev acts).self.pids = self.pids := by
  unfold sinking_body
  rcases h : await_sigstop_delivery self.pids task ev with ⟨ac, aw⟩
  cases ac <;> simp

lemma stopping_branch_self_pids (env : Env) (self : StoppingHandler) (ev1 : Option Event0) :
    (stopping_branch env self ev1).self.pids = self.pids := by
  unfold stopping_branch
  split <;> rfl

lemma singlestep_branch_self_pids (env : Env) (self : StoppingHandler) (task : Nat)
    (ev1 : Option Event0) :
    (singlestep_branch env self task ev1).self.pids = self.pids := by
  unfold singlestep_branch
  rcases ev1 with _ | e
  · rfl
  by_cases ht : task = self.teb
  · simp only [if_pos ht]
    by_cases hsig : e.type = .ev_signal
    · simp only [if_pos hsig]
      cases hok : env.stepOk <;> simp [sinking_body_self_pids, post_singlestep]
    · simp only [if_neg hsig]
      cases env.ksp <;> cases hok : env.stepOk <;>
        simp [sinking_body_self_pids, post_singlestep]
  · simp [if_neg ht]

lemma ugly_branch_self_pids (env : Env) (self : StoppingHandler) (task : Nat)
    (ev1 : Option Event0) :
    (ugly_branch env self task ev1).self.pids = self.pids := by
  unfold ugly_branch
  rcases ev1 with _ | e
  · rfl
  by_cases hit : e.type = .ev_breakpoint <;> simp [hit] <;> split <;> rfl

lemma dispatch_self_pids (env : Env) (self : StoppingHandler) (task : Nat)
    (ev1 : Option Event0) :
    (dispatch env self task ev1).self.pids = self.pids := by
  unfold dispatch
  cases h : self.state
  · exact stopping_branch_self_pids env self ev1
  · exact singlestep_branch_self_pids env self task ev1
  · exact sinking_body_self_pids env self task ev1 []
  · exact ugly_branch_self_pids env self task ev1

lemma final_gate_self (b : BranchResult) (etq : Bool) (task : Nat) :
    (final_gate b etq task).self = b.self := by
  rcases hbe : b.ev with _ | e <;> cases etq <;> simp [final_gate, hbe]

lemma exit_type_facts (ev : Event0) (hx : event_exit_p (some ev) = true) :
    ev.type ≠ .ev_signal ∧ ev.type ≠ .ev_sysret ∧ event_exit_or_none_p (some ev) = true := by
  obtain ⟨ty, s, b⟩ := ev
  cases ty <;> simp_all [event_exit_p, event_exit_or_none_p]

lemma handle_stopping_event_nonsignal (pids : List PidTask) (task : Nat) (ev : Event0)
    (ti : PidTask) (hti : get_task_info pids task = some ti)
    (hns : ev.type ≠ .ev_signal) :
    handle_stopping_event pids task ev =
      (update_task pids task fun t => { t with got_event := true }, some ev) := by
  unfold handle_stopping_event
  rw [hti]
  simp [hns]

lemma preprocess_pids_exit (pids : List PidTask) (task : Nat) (ev : Event0)
    (hx : event_exit_p (some ev) = true)
    (hsome : (get_task_info pids task).isSome = true) :
    (preprocess pids task ev).pids =
      update_task (update_task pids task fun t => { t with got_event := true }) task
        (fun t => { t with pid := 0 }) := by
  obtain ⟨ti, hti⟩ := Option.isSome_iff_exists.mp hsome
  obtain ⟨hns, hnr, _⟩ := exit_type_facts ev hx
  unfold preprocess
  rw [handle_stopping_event_nonsignal pids task ev ti hti hns]
  simp [hti, hx, hnr]

/-- C9: when a task in the stopping set exits during an episode (an
exit/exit-signal event for a pid with a live row), the handler zeroes that
row's pid, so no row with that pid survives; and all_stops_accountable ignores
every row with pid 0 (filtering them out does not change its verdict), so an
exited task can never make all_stops_accountable return false. -/
theorem claim_C9_exit_accountable :
    (∀ (env : Env) (self : StoppingHandler) (task : Nat) (ev : Event0),
      task ≠ 0 → (self.pids.map fun t => t.pid).Nodup →
      (get_task_info self.pids task).isSome = true → event_exit_p (some ev) = true →
      ∀ t ∈ (process_stopping_on_event env self task ev).self.pids, t.pid ≠ task) ∧
    (∀ (q : List QEvent) (pids : List PidTask),
      all_stops_accountable q (pids.filter fun t => t.pid != 0) =
        all_stops_accountable q pids) := by
  refine ⟨?_, all_stops_accountable_filter⟩
  intro env self task ev htask hnd hsome hx t ht
  have hres : (process_stopping_on_event env self task ev).self.pids =
      (preprocess self.pids task ev).pids := by
    unfold process_stopping_on_event
    rw [final_gate_self, dispatch_self_pids]
  rw [hres, preprocess_pids_exit self.pids task ev hx hsome] at ht
  refine mem_update_zero task htask _ ?_ t ht
  rw [map_pid_update_task self.pids task (fun t => { t with got_event := true })
    (fun t => rfl)]
  exact hnd

/-- Witness for C9: the concrete one-row handler, hit by an exit event for its
task, retains no row with that pid, and the zeroed surviving row passes the
non-membership check. -/
theorem claim_C9_witness :
    (7 : Nat) ≠ 0 ∧
    ({ pid := 0, sigstopped := true, delivered := false, vforked := false,
       sysret := false, got_event := true } : PidTask).pid ≠ 7 :=
  ⟨by decide,
   claim_C9_exit_accountable.1 {} selfW 7 ⟨.ev_exit, 0, 0⟩ (by decide) (by decide)
     (by decide) (by decide)
     { pid := 0, sigstopped := true, delivered := false, vforked := false,
       sysret := false, got_event := true } (by decide)⟩

lemma handle_stopping_event_snd_some (pids : List PidTask) (task : Nat) (ev : Event0)
    (e : Event0) (h : (handle_stopping_event pids task ev).2 = some e) : e = ev := by
  unfold handle_stopping_event at h
  rcases hg : get_task_info pids task with _ | ti
  · simp only [hg] at h
    exact (Option.some.inj h).symm
  · by_cases h1 : ev.type = .ev_signal ∧ ev.signum = SIGSTOP
    · by_cases h2 : ti.sigstopped = true ∧ ti.delivered = false
      · simp [hg, h1, h2] at h
      · simp [hg, h1, h2] at h
        exact h.symm
    · simp [hg, h1] at h
      exact h.symm

lemma handle_not_sunk (pids : List PidTask) (task : Nat) (ev : Event0)
    (h : ¬(ev.type = .ev_signal ∧ ev.signum = SIGSTOP ∧
      ∃ ti, get_task_info pids task = some ti ∧ ti.sigstopped = true ∧
        ti.delivered = false)) :
    (handle_stopping_event pids task ev).2 = some ev := by
  unfold handle_stopping_event
  rcases hg : get_task_info pids task with _ | ti
  · rfl
  · by_cases h1 : ev.type = .ev_signal ∧ ev.signum = SIGSTOP
    · by_cases h2 : ti.sigstopped = true ∧ ti.delivered = false
      · exact absurd ⟨h1.1, h1.2, ti, hg, h2.1, h2.2⟩ h
      · simp [hg, h1, h2]
    · simp [hg, h1]

lemma stopping_branch_ev (env : Env) (self : StoppingHandler) (ev1 : Option Event0) :
    (stopping_branch env self ev1).ev = ev1 := by
  unfold stopping_branch
  split <;> rfl

lemma sinking_body_ev (env : Env) (self : StoppingHandler) (task : Nat)
    (ev : Option Event0) (acts : List Action) :
    (sinking_body env self task ev acts).ev = ev := by
  unfold sinking_body
  rcases h : await_sigstop_delivery self.pids task ev with ⟨ac, aw⟩
  cases ac <;> simp

lemma singlestep_branch_ev_some (env : Env) (self : StoppingHandler) (task : Nat)
    (ev1 : Option Event0) (e : Event0)
    (h : (singlestep_branch env self task ev1).ev = some e) : ev1 = some e := by
  rcases ev1 with _ | e2
  · simp [singlestep_branch] at h
  suffices he : e2 = e by rw [he]
  unfold singlestep_branch at h
  by_cases ht : task = self.teb
  · simp only [if_pos ht] at h
    by_cases hsig : e2.type = .ev_signal
    · have hnb : ¬(e2.type = .ev_breakpoint) := by rw [hsig]; intro hc; cases hc
      simp only [if_pos hsig] at h
      cases hok : env.stepOk <;>
        simp [hok, post_singlestep, sinking_body_ev, hnb] at h <;> exact h
    · simp only [if_neg hsig] at h
      rcases hk : env.ksp with _ | _ | _ <;> rw [hk] at h <;>
        by_cases hnb : e2.type = .ev_breakpoint <;>
        cases hok : env.stepOk <;>
        simp [hok, post_singlestep, sinking_body_ev, hnb] at h <;>
        exact h
  · simp only [if_neg ht] at h
    exact Option.some.inj h

lemma ugly_branch_ev_some (env : Env) (self : StoppingHandler) (task : Nat)
    (ev1 : Option Event0) (e : Event0)
    (h : (ugly_branch env self task ev1).ev = some e) : ev1 = some e := by
  rcases ev1 with _ | e2
  · simp [ugly_branch] at h
  suffices he : e2 = e by rw [he]
  unfold ugly_branch at h
  by_cases hnb : e2.type = .ev_breakpoint <;>
    simp only [hnb, if_pos, if_neg, if_true, if_false] at h <;>
    split at h <;> simp at h <;> exact h

lemma dispatch_ev_some (env : Env) (self : StoppingHandler) (task : Nat)
    (ev1 : Option Event0) (e : Event0)
    (h : (dispatch env self task ev1).ev = some e) : ev1 = some e := by
  unfold dispatch at h
  rcases hs : self.state with _ | _ | _ | _ <;> rw [hs] at h
  · rw [stopping_branch_ev] at h
    exact h
  · exact singlestep_branch_ev_some env self task ev1 e h
  · rw [sinking_body_ev] at h
    exact h
  · exact ugly_branch_ev_some env self task ev1 e h

lemma dispatch_ev_stopping (env : Env) (self : StoppingHandler) (task : Nat)
    (ev1 : Option Event0) (hs : self.state = .psh_stopping) :
    (dispatch env self task ev1).ev = ev1 := by
  unfold dispatch
  rw [hs]
  exact stopping_branch_ev env self ev1

lemma preprocess_ev_handle (pids : List PidTask) (task : Nat) (ev : Event0) :
    (preprocess pids task ev).ev = (handle_stopping_event pids task ev).2 := by
  unfold preprocess
  rcases hh : handle_stopping_event pids task ev with ⟨ps, e?⟩
  simp only [hh]
  rcases e? with _ | e
  · rfl
  · by_cases hty : e.type = .ev_sysret <;> simp [hty]

lemma preprocess_etq_false (pids : List PidTask) (task : Nat) (ev : Event0) (e : Event0)
    (hev : (preprocess pids task ev).ev = some e)
    (hetq : (preprocess pids task ev).etq = false) :
    event_exit_or_none_p (some e) = true ∨ e.type = .ev_sysret := by
  unfold preprocess at hev hetq
  rcases hh : handle_stopping_event pids task ev with ⟨ps, e?⟩
  simp only [hh] at hev hetq
  rcases e? with _ | e2
  · simp at hev
  · by_cases hty : e2.type = .ev_sysret
    · simp only [if_pos hty] at hev
      simp at hev
      exact .inr (hev ▸ hty)
    · simp only [if_neg hty] at hev hetq
      simp at hev hetq
      exact .inl (hev ▸ hetq)

lemma preprocess_etq_true (pids : List PidTask) (task : Nat) (ev : Event0) (e : Event0)
    (hev : (preprocess pids task ev).ev = some e)
    (hxn : event_exit_or_none_p (some e) = false) (hns : e.type ≠ .ev_sysret) :
    (preprocess pids task ev).etq = true := by
  rcases hq : (preprocess pids task ev).etq with _ | _
  · rcases preprocess_etq_false pids task ev e hev hq with h | h
    · rw [h] at hxn
      cases hxn
    · exact absurd h hns
  · rfl

lemma final_gate_queued_ret (b : BranchResult) (etq : Bool) (task : Nat)
    (h : (final_gate b etq task).queued.isSome = true) :
    (final_gate b etq task).ret = none := by
  rcases hbe : b.ev with _ | e <;> cases etq <;> simp [final_gate, hbe] at h ⊢

lemma final_gate_ret_some (b : BranchResult) (etq : Bool) (task : Nat) (e : Event0)
    (h : (final_gate b etq task).ret = some e) : b.ev = some e ∧ etq = false := by
  rcases hbe : b.ev with _ | e2
  · cases etq <;> simp [final_gate, hbe] at h
  · cases etq
    · simp [final_gate, hbe] at h
      exact ⟨by rw [h], rfl⟩
    · simp [final_gate, hbe] at h

lemma final_gate_pos (b : BranchResult) (etq : Bool) (task : Nat) (e : Event0)
    (hbe : b.ev = some e) (hetq : etq = true) :
    (final_gate b etq task).queued = some ⟨some task, e⟩ ∧
      (final_gate b etq task).ret = none := by
  subst hetq
  simp [final_gate, hbe]

lemma event_exit_or_none_types (e : Event0) (h : event_exit_or_none_p (some e) = true) :
    e.type = .ev_exit ∨ e.type = .ev_exit_signal ∨ e.type = .ev_none := by
  obtain ⟨ty, s, b⟩ := e
  cases ty <;> simp_all [event_exit_or_none_p, event_exit_p]

lemma event_exit_or_none_of_types (e : Event0)
    (h : e.type = .ev_exit ∨ e.type = .ev_exit_signal ∨ e.type = .ev_none) :
    event_exit_or_none_p (some e) = true := by
  obtain ⟨ty, s, b⟩ := e
  rcases h with h | h | h <;> simp_all [event_exit_or_none_p, event_exit_p]

/-- Counterexample for C3: a syscall-return event for a task in the stopping
set is neither exit/exit-signal nor none and is not a SIGSTOP delivery, yet the
handler does not enqueue it: it returns it to default processing (its row's
sysret flag gets set instead), contradicting the claim's requirement that such
events be queued with nothing returned. -/
theorem claim_C3_counterexample :
    (process_stopping_on_event {} selfW 7 ⟨.ev_sysret, 0, 0⟩).ret =
      some ⟨.ev_sysret, 0, 0⟩ ∧
    (process_stopping_on_event {} selfW 7 ⟨.ev_sysret, 0, 0⟩).queued = none := by
  constructor
  · decide
  · decide

/-- C3 as amended: while the stopping handler is installed, (a) no event is
both enqueued and returned; (b) any event returned to default processing is the
incoming event itself and is an exit, exit-signal, none or syscall-return
event; (c) an event that is none of those four kinds is never returned — it is
sunk (as an expected SIGSTOP delivery, as single-step completion handling, or
by the ugly-workaround detach) or enqueued; and (d) in the STOPPING phase every
such event that is not an expected SIGSTOP delivery is enqueued for later
delivery with nothing returned.  Unlike the original claim, syscall-return
events are returned to default processing and never enqueued. -/
theorem claim_C3_queue_policy_amended (env : Env) (self : StoppingHandler) (task : Nat)
    (ev : Event0) :
    ((process_stopping_on_event env self task ev).queued.isSome = true →
      (process_stopping_on_event env self task ev).ret = none) ∧
    (∀ e, (process_stopping_on_event env self task ev).ret = some e →
      e = ev ∧ (ev.type = .ev_exit ∨ ev.type = .ev_exit_signal ∨ ev.type = .ev_none ∨
        ev.type = .ev_sysret)) ∧
    (event_exit_or_none_p (some ev) = false → ev.type ≠ .ev_sysret →
      (process_stopping_on_event env self task ev).ret = none) ∧
    (self.state = .psh_stopping → event_exit_or_none_p (some ev) = false →
      ev.type ≠ .ev_sysret →
      ¬(ev.type = .ev_signal ∧ ev.signum = SIGSTOP ∧
        ∃ ti, get_task_info self.pids task = some ti ∧ ti.sigstopped = true ∧
          ti.delivered = false) →
      (process_stopping_on_event env self task ev).queued = some ⟨some task, ev⟩ ∧
      (process_stopping_on_event env self task ev).ret = none) := by
  have hb : ∀ e, (process_stopping_on_event env self task ev).ret = some e →
      e = ev ∧ (ev.type = .ev_exit ∨ ev.type = .ev_exit_signal ∨ ev.type = .ev_none ∨
        ev.type = .ev_sysret) := by
    intro e hret
    unfold process_stopping_on_event at hret
    obtain ⟨hbev, hetq⟩ := final_gate_ret_some _ _ _ e hret
    have hpev : (preprocess self.pids task ev).ev = some e :=
      dispatch_ev_some _ _ _ _ e hbev
    have heev : e = ev := by
      have h2 := preprocess_ev_handle self.pids task ev
      rw [hpev] at h2
      exact handle_stopping_event_snd_some self.pids task ev e h2.symm
    refine ⟨heev, ?_⟩
    rcases preprocess_etq_false self.pids task ev e hpev hetq with h | h
    · rcases event_exit_or_none_types e h with h1 | h1 | h1
      · exact .inl (heev ▸ h1)
      · exact .inr (.inl (heev ▸ h1))
      · exact .inr (.inr (.inl (heev ▸ h1)))
    · exact .inr (.inr (.inr (heev ▸ h)))
  refine ⟨?_, hb, ?_, ?_⟩
  · intro h
    unfold process_stopping_on_event at h ⊢
    exact final_gate_queued_ret _ _ _ h
  · intro hxn hns
    rcases hr : (process_stopping_on_event env self task ev).ret with _ | e
    · rfl
    · obtain ⟨he, hty⟩ := hb e hr
      rcases hty with h | h | h
      · rw [event_exit_or_none_of_types ev (.inl h)] at hxn
        cases hxn
      · rw [event_exit_or_none_of_types ev (.inr (.inl h))] at hxn
        cases hxn
      · rcases h with h | h
        · rw [event_exit_or_none_of_types ev (.inr (.inr h))] at hxn
          cases hxn
        · exact absurd h hns
  · intro hst hxn hns hnsk
    have hpev : (preprocess self.pids task ev).ev = some ev := by
      rw [preprocess_ev_handle]
      exact handle_not_sunk self.pids task ev hnsk
    have hetq : (preprocess self.pids task ev).etq = true :=
      preprocess_etq_true self.pids task ev ev hpev hxn hns
    have hbev : (dispatch env { self with pids := (preprocess self.pids task ev).pids }
        task (preprocess self.pids task ev).ev).ev = some ev := by
      rw [dispatch_ev_stopping env { self with pids := (preprocess self.pids task ev).pids }
        task (preprocess self.pids task ev).ev hst]
      exact hpev
    unfold process_stopping_on_event
    exact final_gate_pos _ _ task ev hbev hetq

/-- Witness for C3's amended statement: a plain non-SIGSTOP signal arriving in
the STOPPING phase is enqueued with nothing returned. -/
theorem claim_C3_witness :
    (process_stopping_on_event {} selfW 7 ⟨.ev_signal, 5, 0⟩).queued =
      some ⟨some 7, ⟨.ev_signal, 5, 0⟩⟩ ∧
    (process_stopping_on_event {} selfW 7 ⟨.ev_signal, 5, 0⟩).ret = none :=
  (claim_C3_queue_policy_amended {} selfW 7 ⟨.ev_signal, 5, 0⟩).2.2.2 rfl (by decide)
    (by decide) (by intro hc; exact absurd hc.2.1 (by decide))

/-- Witness for C4's amended statement at a concrete kill failure. -/
theorem claim_C4_witness :
    send_sigstop ⟨true, false⟩ taskW [{ pid := 9 }] =
      { status := .cbs_cont, pids := [{ pid := 9 }], sentKill := false, warned := true,
        destroyed := false } ∧
    (process_install_stopping_handler true [(taskW, ⟨true, true⟩)]).1 = 0 :=
  ⟨claim_C4_sigstop_failure_nonfatal.1 ⟨true, false⟩ taskW [{ pid := 9 }] { pid := 9 }
      rfl rfl rfl rfl rfl (by decide),
   claim_C4_sigstop_failure_nonfatal.2.2.2 [(taskW, ⟨true, true⟩)] (by decide)⟩

end Ltrace
